import Mathlib

/-!
Verification development for the 6502-Emulator repository (`src/6502.c`).

The C source declares the global CPU registers

  `uint16_t pc; uint8_t s; uint8_t p; uint8_t a; uint8_t x; uint8_t y;`
  `uint8_t memory[];`

together with `void reset(){ pc = 0xFFFC; }` and an empty `int main(){}`.
We embed the global register file as a structure `CPU` (fields are `Nat`
with the C integer widths enforced by explicit `% 256` / `% 65536` at every
store, mirroring `uint8_t` / `uint16_t` truncation), and the byte-addressable
memory as a function `Bus : Nat → Nat`.

The instruction engine (`step`, flags updates, addressing, interrupts) is
absent from the source; where a claim needs it, the corresponding definition
is modelled from the specification and marked `Modelled from the spec:`.
-/

namespace MOS6502

/-- CPU register file, mirroring the C globals
`uint16_t pc; uint8_t s; uint8_t p; uint8_t a; uint8_t x; uint8_t y;`. -/
structure CPU where
  pc : Nat
  s : Nat
  p : Nat
  a : Nat
  x : Nat
  y : Nat
  deriving DecidableEq, Repr

/-- Byte-addressable memory, `uint8_t memory[];` viewed as address ↦ byte. -/
def Bus : Type := Nat → Nat

/-- The C globals have static storage duration, so before any host code runs
they are zero-initialized (C11 §6.7.9p10). -/
def initState : CPU := { pc := 0, s := 0, p := 0, a := 0, x := 0, y := 0 }

/-- Embedding of `void reset(){ pc = 0xFFFC; }` from `src/6502.c`:
the sole statement assigns the constant `0xFFFC` to the global `pc`. -/
def reset (st : CPU) : CPU := { st with pc := 0xFFFC }

/-- Embedding of `int main(){}` from `src/6502.c`: an empty body, which by
C99/C11 §5.1.2.2.3 returns 0 from `main`; no global is touched. -/
def main (st : CPU) (mem : Bus) : CPU × Bus × Int := (st, mem, 0)

/-- Point update of the bus: `memory[addr] = v` (value truncated to a byte). -/
def busWrite (b : Bus) (addr v : Nat) : Bus :=
  fun a => if a = addr then v % 256 else b a

/-- Modelled from the spec: zero-page indexed resolution (the addressing-mode
resolver is absent from the source).  "all 8-bit zero-page arithmetic wraps
modulo 256": the effective address of base+index stays in the zero page. -/
def zp_indexed (base idx : Nat) : Nat := (base + idx) % 256

/-- Modelled from the spec: absolute indexed resolution (absent from the
source).  "all 16-bit arithmetic wraps modulo 65536". -/
def abs_indexed (base idx : Nat) : Nat := (base + idx) % 65536

/-- Flag bit positions within `P`: C=0, Z=1, I=2, D=3, B=4, unused=5, V=6, N=7. -/
def flagC : Nat := 0
def flagZ : Nat := 1
def flagI : Nat := 2
def flagB : Nat := 4
def flagU : Nat := 5
def flagV : Nat := 6
def flagN : Nat := 7

/-- Modelled from the spec: named single-bit store into the flags byte
(§4.1 `set(flag, bool)`; the flags register is absent from the source). -/
def setFlag (p i : Nat) (b : Bool) : Nat :=
  if b then p ||| 2 ^ i else p &&& (255 - 2 ^ i)

/-- Modelled from the spec: `update_nz(value)` "sets N from bit 7 and Z from
value==0" (§4.1; absent from the source). -/
def update_nz (p v : Nat) : Nat :=
  setFlag (setFlag p flagZ (v % 256 = 0)) flagN ((v % 256).testBit 7)

/-- Modelled from the spec: `update_overflow_add(a, b, result)` "sets V when
operands share a sign and the result's sign differs from theirs" (§4.1;
absent from the source). -/
def update_overflow_add (a b result : Nat) : Bool :=
  (a.testBit 7 == b.testBit 7) && (result.testBit 7 != a.testBit 7)

/-! ### Instruction engine, modelled from the spec

The dispatcher `step` and the instruction semantics below are absent from the
source; they are modelled from §4.2–§4.5 of the spec for the opcodes the
claims exercise: BRK ($00), RTI ($40), LDA # ($A9), ADC # ($69) and the eight
relative branches.  Unknown opcodes fail with the strict-mode "unknown
opcode" condition (`none`). -/

/-- Modelled from the spec: flags byte pushed by BRK — the current P with the
B flag set (§4.5 "for BRK, the pushed flags byte has B set"). -/
def brkPushedP (st : CPU) : Nat := st.p % 256 ||| 2 ^ flagB

/-- Stack pointer after the first BRK push (each push decrements S by one,
wrapping within the stack page). -/
def brkS1 (st : CPU) : Nat := (st.s % 256 + 255) % 256

/-- Stack pointer after the second BRK push. -/
def brkS2 (st : CPU) : Nat := (brkS1 st + 255) % 256

/-- Stack pointer after the third BRK push. -/
def brkS3 (st : CPU) : Nat := (brkS2 st + 255) % 256

/-- Modelled from the spec: the bus after BRK's three pushes — PC high byte at
$0100+S, PC low byte at $0100+S-1, flags (B set) at $0100+S-2 (§4.5). -/
def brkBus (st : CPU) (bus : Bus) : Bus :=
  busWrite
    (busWrite
      (busWrite bus (0x100 + st.s % 256) ((st.pc + 1) % 65536 / 256))
      (0x100 + brkS1 st) ((st.pc + 1) % 65536 % 256))
    (0x100 + brkS2 st) (brkPushedP st)

/-- Modelled from the spec: the BRK instruction (§4.5) — push PC high, PC low,
flags with B set; set Interrupt-disable; load PC from the IRQ/BRK vector
$FFFE/$FFFF (little-endian) read from the post-push bus; 7 cycles. -/
def brkResult (st : CPU) (bus : Bus) : CPU × Bus × Nat :=
  ({ st with
      pc := (256 * (brkBus st bus 0xFFFF % 256) + brkBus st bus 0xFFFE % 256) % 65536,
      s := brkS3 st,
      p := st.p % 256 ||| 2 ^ flagI },
    brkBus st bus, 7)

/-- Modelled from the spec: the RTI instruction (§4.5) — pop flags, pop PC
low, pop PC high (each pop increments S, wrapping within the stack page);
6 cycles. -/
def rtiResult (st : CPU) (bus : Bus) : CPU × Bus × Nat :=
  ({ st with
      pc := (256 * (bus (0x100 + ((st.s % 256 + 3) % 256)) % 256)
              + bus (0x100 + ((st.s % 256 + 2) % 256)) % 256) % 65536,
      s := (st.s % 256 + 3) % 256,
      p := bus (0x100 + ((st.s % 256 + 1) % 256)) % 256 },
    bus, 6)

/-- Modelled from the spec: LDA immediate — load the operand byte into A,
update N and Z, advance PC by 2; 2 cycles. -/
def ldaResult (st : CPU) (bus : Bus) : CPU × Bus × Nat :=
  ({ st with
      a := bus ((st.pc + 1) % 65536) % 256,
      p := update_nz (st.p % 256) (bus ((st.pc + 1) % 65536) % 256),
      pc := (st.pc + 2) % 65536 },
    bus, 2)

/-- Modelled from the spec: ADC immediate — A + operand + carry-in; the carry
flag acts as a 9th bit, V follows `update_overflow_add`, N/Z from the result;
advance PC by 2; 2 cycles. -/
def adcResult (st : CPU) (bus : Bus) : CPU × Bus × Nat :=
  let m := bus ((st.pc + 1) % 65536) % 256
  let sum := st.a % 256 + m + (if (st.p % 256).testBit flagC then 1 else 0)
  let r := sum % 256
  ({ st with
      a := r,
      p := update_nz (setFlag (setFlag (st.p % 256) flagC (256 ≤ sum))
                        flagV (update_overflow_add (st.a % 256) m r)) r,
      pc := (st.pc + 2) % 65536 },
    bus, 2)

/-- Modelled from the spec: branch conditions of the eight relative-mode
opcodes (BPL, BMI, BVC, BVS, BCC, BCS, BNE, BEQ); `none` for any other
opcode byte. -/
def branchCond (op p : Nat) : Option Bool :=
  if op = 0x10 then some (!p.testBit flagN)
  else if op = 0x30 then some (p.testBit flagN)
  else if op = 0x50 then some (!p.testBit flagV)
  else if op = 0x70 then some (p.testBit flagV)
  else if op = 0x90 then some (!p.testBit flagC)
  else if op = 0xB0 then some (p.testBit flagC)
  else if op = 0xD0 then some (!p.testBit flagZ)
  else if op = 0xF0 then some (p.testBit flagZ)
  else none

/-- Base cycle count of every relative branch opcode. -/
def branchBase : Nat := 2

/-- Modelled from the spec: branch target — the signed 8-bit displacement is
taken relative to the address after the two-byte branch instruction, with
16-bit wraparound (§4.2 relative mode). -/
def branchTarget (st : CPU) (bus : Bus) : Nat :=
  ((st.pc + 2) % 65536
    + (if bus ((st.pc + 1) % 65536) % 256 < 128
       then bus ((st.pc + 1) % 65536) % 256
       else bus ((st.pc + 1) % 65536) % 256 + 65280)) % 65536

/-- Modelled from the spec: effect of a branch with condition value `cond` —
not taken: fall through for the base cycle count; taken: one extra cycle,
plus one more when the target's page differs from that of the address after
the instruction (§4.3). -/
def branchResult (st : CPU) (bus : Bus) (cond : Bool) : CPU × Bus × Nat :=
  if cond then
    ({ st with pc := branchTarget st bus }, bus,
      branchBase +
        (if (st.pc + 2) % 65536 / 256 = branchTarget st bus / 256 then 1 else 2))
  else ({ st with pc := (st.pc + 2) % 65536 }, bus, branchBase)

/-- Modelled from the spec: the dispatcher `step(cpu, bus) -> cycles` (§4.3) —
fetch the opcode at PC, execute its effect, return the updated state, the
updated bus and the consumed cycle count; strict-mode failure (`none`) on an
unknown opcode. -/
def step (st : CPU) (bus : Bus) : Option (CPU × Bus × Nat) :=
  if bus (st.pc % 65536) % 256 = 0x00 then some (brkResult st bus)
  else if bus (st.pc % 65536) % 256 = 0x40 then some (rtiResult st bus)
  else if bus (st.pc % 65536) % 256 = 0xA9 then some (ldaResult st bus)
  else if bus (st.pc % 65536) % 256 = 0x69 then some (adcResult st bus)
  else
    match branchCond (bus (st.pc % 65536) % 256) (st.p % 256) with
    | some cond => some (branchResult st bus cond)
    | none => none

/-! ### Concrete exhibit states and buses -/

/-- C1 divergence exhibit: a bus holding the reset vector
$FFFC/$FFFD = little-endian $1234. -/
def c1Bus : Bus := fun addr =>
  if addr = 0xFFFC then 0x34 else if addr = 0xFFFD then 0x12 else 0

/-- C4 exhibit state: A=$01, Carry clear (P=$20: only the unused bit set),
about to execute at $0600. -/
def c4State : CPU := { pc := 0x0600, s := 0xFD, p := 0x20, a := 0x01, x := 0, y := 0 }

/-- C4 exhibit bus: `ADC #$7F` at $0600. -/
def c4Bus : Bus := fun addr =>
  if addr = 0x0600 then 0x69 else if addr = 0x0601 then 0x7F else 0

/-- C5 exhibit state: about to execute BRK at $0600, P=$30 (B and unused set). -/
def c5St : CPU := { pc := 0x0600, s := 0xFD, p := 0x30, a := 0, x := 0, y := 0 }

/-- C5 exhibit bus: BRK at $0600, IRQ/BRK vector $FFFE/$FFFF → $7000,
RTI at $7000. -/
def c5Bus : Bus := fun addr =>
  if addr = 0x0600 then 0x00
  else if addr = 0xFFFE then 0x00
  else if addr = 0xFFFF then 0x70
  else if addr = 0x7000 then 0x40 else 0

/-- C6 exhibit state: Z flag set, about to execute at $0600. -/
def c6St : CPU := { pc := 0x0600, s := 0xFD, p := 0x02, a := 0, x := 0, y := 0 }

/-- C6 exhibit bus: `BEQ +$10` at $0600 (taken, no page cross). -/
def c6Bus : Bus := fun addr =>
  if addr = 0x0600 then 0xF0 else if addr = 0x0601 then 0x10 else 0

/-! ### Claims -/

/-- **C1** (code_bug exhibit). The spec's reset contract demands SP=$FD,
Interrupt-disable=1 and PC = the 16-bit word stored at $FFFC/$FFFD.  The code's
`reset()` assigns the *address* $FFFC to PC and never touches S or P: from the
zero-initialized globals, after `reset()` the stack pointer is 0 (not $FD), the
I flag is 0 (not 1), and PC is $FFFC itself (not $1234 = the vector contents of
`c1Bus`). -/
theorem reset_violates_reset_contract :
    (reset initState).s = 0 ∧ (reset initState).s ≠ 0xFD ∧
    (reset initState).p.testBit flagI = false ∧
    (reset initState).pc = 0xFFFC ∧
    (reset initState).pc ≠ c1Bus 0xFFFC + 256 * c1Bus 0xFFFD := by
  refine ⟨rfl, by decide, by decide, rfl, by decide⟩

/-- **C7** (code_bug exhibit). The spec states the invariant "the unused bit
(bit 5 of P) is always 1", and the source's own comment says this flag "is
always 1"; but the zero-initialized state has P = 0, and `reset()` — the only
operation the source implements — leaves P untouched, so bit 5 stays 0. -/
theorem unused_flag_not_established :
    initState.p.testBit flagU = false ∧
    (reset initState).p.testBit flagU = false := by
  decide

/-- **C8** (confirmed). `reset()` leaves the accumulator A and the index
registers X and Y unchanged, for every prior CPU state. -/
theorem reset_preserves_axy (st : CPU) :
    (reset st).a = st.a ∧ (reset st).x = st.x ∧ (reset st).y = st.y :=
  ⟨rfl, rfl, rfl⟩

/-- **C9** (confirmed). `reset()` also leaves S and P unchanged: its only
effect is the assignment to PC (the result is the prior state with pc := $FFFC). -/
theorem reset_only_writes_pc (st : CPU) :
    (reset st).s = st.s ∧ (reset st).p = st.p ∧
    reset st = { st with pc := 0xFFFC } :=
  ⟨rfl, rfl, rfl⟩

/-- **C10** (confirmed). `main()` has an empty body: for every initial state of
the global registers and memory it changes nothing and returns 0. -/
theorem main_is_noop (st : CPU) (mem : Bus) :
    main st mem = (st, mem, 0) :=
  rfl

/-- **C3** (confirmed, spec-modelled resolver). Address computations are total
functions whose results wrap: zero-page indexed resolution always lands in the
zero page ($00–$FF), absolute indexed resolution always lands in the 16-bit
space, and in particular base $FF + offset $02 resolves to $01, not $101. -/
theorem address_computations_wrap (base idx : Nat) :
    zp_indexed base idx < 256 ∧
    abs_indexed base idx < 65536 ∧
    zp_indexed 0xFF 0x02 = 0x01 ∧
    zp_indexed 0xFF 0x02 ≠ 0x101 := by
  refine ⟨Nat.mod_lt _ (by decide), Nat.mod_lt _ (by decide), by decide, by decide⟩

/-- **C2** (confirmed, spec-modelled engine). `step` is a pure function of the
CPU state and bus contents at call time: two calls on identical inputs yield
identical results — the same resulting state, the same resulting bus and the
same cycle count (or the same unknown-opcode failure). -/
theorem step_deterministic (st1 st2 : CPU) (b1 b2 : Bus)
    (hst : st1 = st2) (hb : b1 = b2) :
    step st1 b1 = step st2 b2 := by
  subst hst
  subst hb
  rfl

/-- Witness for C2: determinism instantiated at the concrete ADC exhibit. -/
theorem step_deterministic_witness :
    step c4State c4Bus = step c4State c4Bus :=
  step_deterministic c4State c4State c4Bus c4Bus rfl rfl

/-- **C4** (confirmed, spec-modelled engine). Executing `ADC #$7F` with A=$01
and Carry clear yields A=$80 with N=1, V=1, Z=0, C=0 (in 2 cycles); and in
general `update_overflow_add` sets V exactly when the two operands share a
sign bit and the result's sign bit differs from theirs. -/
theorem adc_signed_overflow :
    ((step c4State c4Bus).map (fun r =>
        (r.1.a, r.1.p.testBit flagN, r.1.p.testBit flagV,
         r.1.p.testBit flagZ, r.1.p.testBit flagC, r.2.2)) =
      some (0x80, true, true, false, false, 2)) ∧
    ∀ a b r : Nat, update_overflow_add a b r = true ↔
      (a.testBit 7 = b.testBit 7 ∧ ¬r.testBit 7 = a.testBit 7) := by
  constructor
  · decide
  · intro a b r
    simp [update_overflow_add]

/-- **C6** (confirmed, spec-modelled engine). A branch instruction consumes
exactly its base cycle count when its condition is false; one extra cycle when
taken, and a second extra cycle when the taken target crosses a page boundary
relative to the address after the instruction. -/
theorem branch_cycles (st : CPU) (bus : Bus) (cond : Bool)
    (h : branchCond (bus (st.pc % 65536) % 256) (st.p % 256) = some cond) :
    (step st bus).map (fun r => r.2.2) =
      some (branchBase +
        (if cond then
          (if (st.pc + 2) % 65536 / 256 = branchTarget st bus / 256 then 1 else 2)
         else 0)) := by
  have hops : bus (st.pc % 65536) % 256 ≠ 0x00 ∧ bus (st.pc % 65536) % 256 ≠ 0x40 ∧
      bus (st.pc % 65536) % 256 ≠ 0xA9 ∧ bus (st.pc % 65536) % 256 ≠ 0x69 := by
    unfold branchCond at h
    split_ifs at h <;> omega
  obtain ⟨n00, n40, nA9, n69⟩ := hops
  unfold step
  rw [if_neg n00, if_neg n40, if_neg nA9, if_neg n69, h]
  cases cond <;> simp [branchResult]

/-- Witness for C6: `BEQ +$10` taken without page cross from the concrete
exhibit consumes base+1 = 3 cycles. -/
theorem branch_cycles_witness :
    (step c6St c6Bus).map (fun r => r.2.2) = some 3 := by
  have h := branch_cycles c6St c6Bus true (by decide)
  rw [h]
  decide

/-- **C5** (confirmed, spec-modelled engine). BRK followed by RTI is a round
trip on flags and PC through the stack: for every CPU state, executing BRK
(7 cycles) and then RTI (6 cycles) at the vectored address restores exactly
the flags byte BRK pushed — the pre-BRK flags with the stored B value — and
the PC value BRK pushed; in particular, when B was already set before BRK,
the pre-BRK flags byte is restored verbatim. -/
theorem brk_rti_roundtrip (st : CPU) (bus : Bus)
    (hpc : st.pc < 65536) (hs : st.s < 256) (hp : st.p < 256)
    (hop : bus st.pc = 0x00)
    (hrti : ∀ st1 b1 c1, step st bus = some (st1, b1, c1) → b1 st1.pc = 0x40) :
    ∃ st1 b1 st2 b2,
      step st bus = some (st1, b1, 7) ∧
      step st1 b1 = some (st2, b2, 6) ∧
      st2.p = st.p ||| 2 ^ flagB ∧
      (st.p.testBit flagB = true → st2.p = st.p) ∧
      st2.pc = (st.pc + 1) % 65536 := by
  have hpcm : st.pc % 65536 = st.pc := Nat.mod_eq_of_lt hpc
  have hsm : st.s % 256 = st.s := Nat.mod_eq_of_lt hs
  have hpm : st.p % 256 = st.p := Nat.mod_eq_of_lt hp
  have h1 : step st bus = some (brkResult st bus) := by
    unfold step
    rw [hpcm, hop]
    norm_num
  have htup : brkResult st bus = ((brkResult st bus).1, brkBus st bus, 7) := rfl
  have hop2 : brkBus st bus (brkResult st bus).1.pc = 0x40 :=
    hrti (brkResult st bus).1 (brkBus st bus) 7 (by rw [h1, htup])
  have hst1pc : (brkResult st bus).1.pc < 65536 := Nat.mod_lt _ (by norm_num)
  have h2 : step (brkResult st bus).1 (brkBus st bus) =
      some (rtiResult (brkResult st bus).1 (brkBus st bus)) := by
    unfold step
    rw [Nat.mod_eq_of_lt hst1pc, hop2]
    norm_num
  have htup2 : rtiResult (brkResult st bus).1 (brkBus st bus)
      = ((rtiResult (brkResult st bus).1 (brkBus st bus)).1, brkBus st bus, 6) := rfl
  have hpush_lt : brkPushedP st < 256 := by
    have hx : st.p % 256 < 2 ^ 8 := Nat.mod_lt _ (by norm_num)
    have hy : (2 : Nat) ^ flagB < 2 ^ 8 := by norm_num [flagB]
    simpa [brkPushedP] using Nat.or_lt_two_pow hx hy
  have d21 : brkS1 st ≠ brkS2 st := by
    simp only [brkS2, brkS1]
    omega
  have d20 : st.s ≠ brkS2 st := by
    simp only [brkS2, brkS1]
    omega
  have d10 : st.s ≠ brkS1 st := by
    simp only [brkS1]
    omega
  have l1 : brkBus st bus (0x100 + brkS2 st) = brkPushedP st := by
    simp [brkBus, busWrite, Nat.mod_eq_of_lt hpush_lt]
  have l2 : brkBus st bus (0x100 + brkS1 st) = (st.pc + 1) % 65536 % 256 := by
    simp [brkBus, busWrite, d21]
  have l3 : brkBus st bus (0x100 + st.s) = (st.pc + 1) % 65536 / 256 := by
    simp [brkBus, busWrite, hsm, d20, d10]
    omega
  have e1 : (brkS3 st % 256 + 1) % 256 = brkS2 st := by
    simp only [brkS3, brkS2, brkS1]
    omega
  have e2 : (brkS3 st % 256 + 2) % 256 = brkS1 st := by
    simp only [brkS3, brkS2, brkS1]
    omega
  have e3 : (brkS3 st % 256 + 3) % 256 = st.s := by
    simp only [brkS3, brkS2, brkS1]
    omega
  have hs3 : (brkResult st bus).1.s = brkS3 st := rfl
  have hp2 : (rtiResult (brkResult st bus).1 (brkBus st bus)).1.p = st.p ||| 2 ^ flagB := by
    show brkBus st bus (0x100 + (((brkResult st bus).1.s % 256 + 1) % 256)) % 256
        = st.p ||| 2 ^ flagB
    rw [hs3, e1, l1, Nat.mod_eq_of_lt hpush_lt]
    unfold brkPushedP
    rw [hpm]
  have hpc2 : (rtiResult (brkResult st bus).1 (brkBus st bus)).1.pc = (st.pc + 1) % 65536 := by
    show (256 * (brkBus st bus (0x100 + (((brkResult st bus).1.s % 256 + 3) % 256)) % 256)
          + brkBus st bus (0x100 + (((brkResult st bus).1.s % 256 + 2) % 256)) % 256) % 65536
        = (st.pc + 1) % 65536
    rw [hs3, e2, e3, l2, l3]
    omega
  refine ⟨(brkResult st bus).1, brkBus st bus,
    (rtiResult (brkResult st bus).1 (brkBus st bus)).1, brkBus st bus,
    by rw [h1, htup], by rw [h2, htup2], hp2, ?_, hpc2⟩
  intro hB
  rw [hp2]
  apply Nat.eq_of_testBit_eq
  intro i
  rw [Nat.testBit_or, Nat.testBit_two_pow]
  by_cases hi : flagB = i
  · subst hi
    simp [hB]
  · simp [hi]

/-- Witness for C5: the round trip instantiated at the concrete exhibit
(BRK at $0600, vector → $7000, RTI at $7000, P=$30). -/
theorem brk_rti_roundtrip_witness :
    ∃ st1 b1 st2 b2,
      step c5St c5Bus = some (st1, b1, 7) ∧
      step st1 b1 = some (st2, b2, 6) ∧
      st2.p = c5St.p ||| 2 ^ flagB ∧
      (c5St.p.testBit flagB = true → st2.p = c5St.p) ∧
      st2.pc = (c5St.pc + 1) % 65536 :=
  brk_rti_roundtrip c5St c5Bus (by decide) (by decide) (by decide) (by decide)
    (by
      intro st1 b1 c1 h
      rw [show step c5St c5Bus
          = some ((brkResult c5St c5Bus).1, brkBus c5St c5Bus, 7) from rfl] at h
      injection h with h
      injection h with hA h
      injection h with hB hC
      rw [← hA, ← hB]
      decide)

end MOS6502
